import Mathlib

/-!
# Pink Reader PWA — verification of the media-library core

Shallow embedding of the library manager, persistent content store, and the
viewer state machines of the Pink Reader PWA (`src/js/app.js`,
`src/js/utils.js`, `src/sw.js`, and the PDF viewer component).

Modelling conventions:
* JS numbers that hold times/durations are modelled as `ℚ` (the clamping and
  comparison logic is exact on the values the program manipulates);
* page numbers are `Int` (JS integers may be negative before clamping);
* the opaque UUID `id` of a file is modelled as `Nat`;
* asynchronous storage operations that can resolve or reject are passed their
  outcome explicitly (`Except String Unit` / `Bool` parameters);
* emitted notifications are recorded in an explicit `trace` field, in
  emission order, so ordering claims are statements about that list.
-/

namespace PinkReader

/-- The `mediaType` enum: `{pdf, image, video}` (`Utils.getMediaType`). -/
inductive MediaType where
  | pdf
  | image
  | video
deriving DecidableEq, Repr

/-- Events emitted by `MediaManager.emit` that the claims mention. -/
inductive Event where
  | filesChanged
  | currentFileChanged
  | settingsChanged
deriving DecidableEq, Repr

/-! ## `Utils.getMediaType` (src/js/utils.js lines 56–68)

`fileName.toLowerCase().split('.').pop()` is modelled character-by-character:
`lowerData` is `toLowerCase`, `splitDot` is `split('.')` (which always yields
a non-empty array, so `.pop()` is the last element). -/

/-- `fileName.toLowerCase()`, as the character list of the string. -/
def lowerData (s : String) : List Char :=
  s.data.map Char.toLower

/-- `split('.')` on a character list: splits at every `'.'`; the result is
always non-empty (splitting the empty string gives `[[]]`), matching JS
`String.prototype.split`. -/
def splitDot : List Char → List (List Char)
  | [] => [[]]
  | c :: cs =>
    match splitDot cs with
    | [] => [[c]]
    | p :: ps => if c = '.' then [] :: p :: ps else (c :: p) :: ps

/-- `fileName.toLowerCase().split('.').pop()` — the extension the source
compares against its extension tables. -/
def extOf (fileName : String) : List Char :=
  (splitDot (lowerData fileName)).getLastD []

def imageExtensions : List (List Char) :=
  [['j','p','g'], ['j','p','e','g'], ['p','n','g'], ['g','i','f'],
   ['w','e','b','p'], ['b','m','p'], ['s','v','g']]

def videoExtensions : List (List Char) :=
  [['m','p','4'], ['w','e','b','m'], ['o','g','g'], ['m','o','v'],
   ['a','v','i'], ['m','k','v']]

def pdfExtensions : List (List Char) :=
  [['p','d','f']]

/-- `Utils.getMediaType`: checks the pdf, image, then video tables and
defaults to `'pdf'` (the source binds `extension` once; it is inlined here). -/
def getMediaType (fileName : String) : MediaType :=
  if pdfExtensions.contains (extOf fileName) then MediaType.pdf
  else if imageExtensions.contains (extOf fileName) then MediaType.image
  else if videoExtensions.contains (extOf fileName) then MediaType.video
  else MediaType.pdf

/-- `PinkReaderApp.isValidFile` (src/js/app.js lines 293–296):
`['pdf', 'image', 'video'].includes(Utils.getMediaType(file.name))`. -/
def isValidFile (fileName : String) : Bool :=
  [MediaType.pdf, MediaType.image, MediaType.video].contains (getMediaType fileName)

/-! ## Data model (MediaManager, src/js/app.js)

`MediaFile` is the metadata record built in `addFile`; the `fileData`
IndexedDB object store (keyPath `id`) holds one `ContentRecord` per file.
`MediaManager`'s mutable fields that the claims mention are gathered in
`ManagerState`; every `emit` appends the event to `trace`. The
`forceUpdateTrigger` UUID that `setCurrentFile` regenerates is not modelled
(it is a fresh random string used only to force UI re-render). -/

/-- One imported item's metadata (the object literal in `addFile`). -/
structure MediaFile where
  id : Nat
  fileName : String
  displayName : String
  mediaType : MediaType
  fileSize : Nat
  importDate : String
  thumbnailDataUrl : String
  pageCount : Option Nat
  lastViewedPage : Int
  lastViewedTime : ℚ
  videoDuration : Option ℚ
deriving DecidableEq, Repr

/-- A raw file handed to `addFile` (name, size, bytes, declared MIME type);
`Utils.fileToArrayBuffer` yields `bytes`. -/
structure RawFile where
  name : String
  size : Nat
  bytes : List Nat
  type : String
deriving DecidableEq, Repr

/-- A record of the `fileData` object store:
`{ id, data: arrayBuffer, type: file.type, name: file.name }`. -/
structure ContentRecord where
  id : Nat
  data : List Nat
  type : String
  name : String
deriving DecidableEq, Repr

/-- `store.put(record)` on an object store with `keyPath: 'id'`: replaces the
record with the same key if present, otherwise adds it. -/
def fdPut (store : List ContentRecord) (r : ContentRecord) : List ContentRecord :=
  if store.any (fun x => x.id == r.id) then
    store.map (fun x => if x.id = r.id then r else x)
  else
    store ++ [r]

/-- `store.get(id)`: the record with that key, if any. -/
def fdGet (store : List ContentRecord) (id : Nat) : Option ContentRecord :=
  store.find? (fun x => x.id == id)

/-- `store.delete(id)` (used by `removeFile`). -/
def fdDelete (store : List ContentRecord) (id : Nat) : List ContentRecord :=
  store.filter (fun x => x.id != id)

/-- The `MediaManager` fields the claims are about. -/
structure ManagerState where
  files : List MediaFile
  currentFile : Option MediaFile
  fileData : List ContentRecord
  trace : List Event
deriving DecidableEq, Repr

/-- A manager with no files, no selection, empty store, no events yet. -/
def emptyManager : ManagerState :=
  { files := [], currentFile := none, fileData := [], trace := [] }

/-- `MediaManager.storeFileData(fileId, file)` (lines 905–921): converts the
file to an array buffer and `put`s `{id, data, type, name}` into `fileData`.
The promise outcome (resolve/reject) is the caller's `contentWrite` argument;
this definition is the effect of the successful path on the store. -/
def storeFileData (store : List ContentRecord) (fileId : Nat) (file : RawFile) :
    List ContentRecord :=
  fdPut store { id := fileId, data := file.bytes, type := file.type, name := file.name }

/-- `MediaManager.getFileData(fileId)` (lines 926–942): resolves a blob built
from the stored bytes with the stored MIME type, or rejects with
`'File data not found'`. -/
def getFileData (store : List ContentRecord) (fileId : Nat) :
    Except String (List Nat × String) :=
  match fdGet store fileId with
  | some result => Except.ok (result.data, result.type)
  | none => Except.error "File data not found"

/-- `MediaManager.setCurrentFile(file)` (lines 1026–1032): guarded by
`if (this.currentFile !== file || file !== null)`; inside the guard it sets
the pointer and emits `currentFileChanged`. -/
def setCurrentFile (s : ManagerState) (file : Option MediaFile) : ManagerState :=
  if s.currentFile ≠ file ∨ file ≠ none then
    { s with currentFile := file, trace := s.trace ++ [Event.currentFileChanged] }
  else s

/-- `MediaManager.addFile(file)` (lines 854–900). The externally produced
values — the generated UUID (`fileId`), `importDate`, the best-effort
thumbnail, the best-effort pdf page count (`getPDFPageCount` catches its own
errors and returns null) and the outcome of awaiting `storeFileData` — are
passed as arguments. On a rejected content write the `catch` re-throws and
no in-memory mutation has happened; on success the metadata object is built,
pushed, selected (emitting `currentFileChanged`), then `filesChanged` is
emitted. (Metadata persistence is not synchronous here: it is the debounced
`saveFiles` scheduled by the `filesChanged` listener from `setupAutoSave`.) -/
def addFile (s : ManagerState) (file : RawFile) (fileId : Nat)
    (importDate thumbnailDataUrl : String) (pdfPageCount : Option Nat)
    (contentWrite : Except String Unit) :
    Except String MediaFile × ManagerState :=
  match contentWrite with
  | Except.error e => (Except.error e, s)
  | Except.ok _ =>
    let mediaType := getMediaType file.name
    let s1 := { s with fileData := storeFileData s.fileData fileId file }
    let mediaFile : MediaFile :=
      { id := fileId
        fileName := file.name
        displayName := file.name
        mediaType := mediaType
        fileSize := file.size
        importDate := importDate
        thumbnailDataUrl := thumbnailDataUrl
        pageCount := if mediaType = MediaType.pdf then pdfPageCount else none
        lastViewedPage := 1
        lastViewedTime := 0
        videoDuration := none }
    let s2 := { s1 with files := s1.files ++ [mediaFile] }
    let s3 := setCurrentFile s2 (some mediaFile)
    let s4 := { s3 with trace := s3.trace ++ [Event.filesChanged] }
    (Except.ok mediaFile, s4)

/-- `MediaManager.removeFile(file)` (lines 963–985): filters the in-memory
list by id, deletes the content record, re-selects the first remaining file
(or null) if the removed file was current, then emits `filesChanged`. -/
def removeFile (s : ManagerState) (file : MediaFile) : ManagerState :=
  let s1 := { s with
    files := s.files.filter (fun f => f.id != file.id)
    fileData := fdDelete s.fileData file.id }
  let s2 :=
    match s1.currentFile with
    | some c => if c.id = file.id then setCurrentFile s1 s1.files.head? else s1
    | none => s1
  { s2 with trace := s2.trace ++ [Event.filesChanged] }

/-- `this.files[fileIndex].lastViewedTime = time` after
`findIndex(f => f.id === file.id)`: update the first record with that id. -/
def setLastViewedTimeFirst (fid : Nat) (time : ℚ) : List MediaFile → List MediaFile
  | [] => []
  | f :: fs =>
    if f.id = fid then { f with lastViewedTime := time } :: fs
    else f :: setLastViewedTimeFirst fid time fs

/-- `MediaManager.updateLastViewedTime(file, time)` (lines 1054–1066):
a no-op when `findIndex` returns −1; otherwise it mutates the list entry and,
when the current file has the same id, the current-file reference, then
schedules the debounced save (no notification is emitted). -/
def updateLastViewedTime (s : ManagerState) (file : MediaFile) (time : ℚ) :
    ManagerState :=
  if s.files.any (fun f => f.id == file.id) then
    match s.currentFile with
    | some c =>
      if c.id = file.id then
        { s with files := setLastViewedTimeFirst file.id time s.files
                 currentFile := some { c with lastViewedTime := time } }
      else { s with files := setLastViewedTimeFirst file.id time s.files }
    | none => { s with files := setLastViewedTimeFirst file.id time s.files }
  else s

/-- `this.files[fileIndex].lastViewedPage = page` after
`findIndex(f => f.id === file.id)`: update the first record with that id. -/
def setLastViewedPageFirst (fid : Nat) (page : Int) : List MediaFile → List MediaFile
  | [] => []
  | f :: fs =>
    if f.id = fid then { f with lastViewedPage := page } :: fs
    else f :: setLastViewedPageFirst fid page fs

/-- `MediaManager.updateLastViewedPage(file, page)` (lines 1037–1049),
same shape as `updateLastViewedTime`. -/
def updateLastViewedPage (s : ManagerState) (file : MediaFile) (page : Int) :
    ManagerState :=
  if s.files.any (fun f => f.id == file.id) then
    match s.currentFile with
    | some c =>
      if c.id = file.id then
        { s with files := setLastViewedPageFirst file.id page s.files
                 currentFile := some { c with lastViewedPage := page } }
      else { s with files := setLastViewedPageFirst file.id page s.files }
    | none => { s with files := setLastViewedPageFirst file.id page s.files }
  else s

/-- `MediaManager.getFileById(id)` (lines 1112–1114):
`this.files.find(file => file.id === id)`. -/
def getFileById (s : ManagerState) (id : Nat) : Option MediaFile :=
  s.files.find? (fun f => f.id == id)

/-! ## `VideoPlayer` (src/sw.js)

The fields `seek`/`saveCurrentPosition` touch. `videoElementTime` is the
`currentTime` property of the HTML video element; `currentTime` is the
player's *own* field, which the element updates asynchronously through
`timeupdate` events — a synchronous method body never sees it change. -/

structure PlayerState where
  hasVideoElement : Bool
  videoElementTime : ℚ
  currentFile : Option MediaFile
  currentTime : ℚ
  duration : ℚ
  lastSavedPosition : ℚ
  manager : ManagerState
deriving DecidableEq, Repr

/-- `VideoPlayer.saveCurrentPosition` (src/sw.js lines 928–933): persists
`this.currentTime` through `updateLastViewedTime` only when a current file
exists and `Math.abs(this.currentTime - this.lastSavedPosition) > 1`. -/
def saveCurrentPosition (p : PlayerState) : PlayerState :=
  match p.currentFile with
  | some cf =>
    if 1 < |p.currentTime - p.lastSavedPosition| then
      { p with
        manager := updateLastViewedTime p.manager cf p.currentTime
        lastSavedPosition := p.currentTime }
    else p
  | none => p

/-- `VideoPlayer.seek(time)` (src/sw.js lines 751–759): guarded by
`if (!this.videoElement || !this.currentFile) return;`; clamps with
`Math.max(0, Math.min(this.duration, time))`, assigns the clamp to the video
element's `currentTime` property, then calls `saveCurrentPosition()` — which
reads the player's `currentTime` field, not the just-assigned element
position. -/
def seek (p : PlayerState) (time : ℚ) : PlayerState :=
  if p.hasVideoElement = true ∧ p.currentFile ≠ none then
    saveCurrentPosition { p with videoElementTime := max 0 (min p.duration time) }
  else p

/-! ## `PDFViewer` (src/unnamed/part_000)

`renderPage` is modelled at the granularity of one complete execution of the
async function body: `isRendering` is set at entry and reset in `finally`,
so across a whole run it is unchanged; `renderOk` is the outcome of the
engine calls (`getPage`/`render`). Both engine failure and
`RenderingCancelledException` are caught inside `renderPage`, so the function
never throws; on the failure path the assigned `renderTask` is left behind
(line 282 sets it, the success path at line 285 is the only place that
clears it). `cancelCount` counts `renderTask.cancel()` calls. -/

structure ViewerState where
  pdfLoaded : Bool
  currentPage : Int
  totalPages : Int
  isRendering : Bool
  renderTask : Option Unit
  cancelCount : Nat
  renderedPage : Option Int
  currentFile : Option MediaFile
  manager : ManagerState
deriving DecidableEq, Repr

/-- The tail of `renderPage` after the entry guard and stale-task
cancellation: the engine renders; on success (`renderTask = null`, the page
drawn) the committed page is persisted via `updateLastViewedPage` when a
current file exists; on failure/cancellation the error is caught and the
assigned task is left in `renderTask`. -/
def renderFinish (v0 : ViewerState) (renderOk : Bool) : ViewerState :=
  if renderOk then
    match v0.currentFile with
    | some cf =>
      { v0 with renderTask := none, renderedPage := some v0.currentPage
                manager := updateLastViewedPage v0.manager cf v0.currentPage }
    | none => { v0 with renderTask := none, renderedPage := some v0.currentPage }
  else
    { v0 with renderTask := some () }

/-- `PDFViewer.renderPage` (lines 240–299). Entry guard
`if (!this.pdfDocument || this.isRendering) return;` — note a call made while
a render is in flight returns without touching anything (in particular it
does not cancel the in-flight task). Otherwise any leftover task is
cancelled and the render proceeds as in `renderFinish`. -/
def renderPage (v : ViewerState) (renderOk : Bool) : ViewerState :=
  if v.pdfLoaded = false ∨ v.isRendering = true then v
  else
    renderFinish
      (if v.renderTask.isSome then { v with cancelCount := v.cancelCount + 1 } else v)
      renderOk

/-- `PDFViewer.goToPage(pageNumber)` (lines 304–313): no pdf → return;
clamps with `Math.max(1, Math.min(pageNumber, this.totalPages))`; equal to
the current page → return; otherwise updates `currentPage` and renders. -/
def goToPage (v : ViewerState) (renderOk : Bool) (pageNumber : Int) : ViewerState :=
  if v.pdfLoaded = false then v
  else
    if max 1 (min pageNumber v.totalPages) = v.currentPage then v
    else renderPage { v with currentPage := max 1 (min pageNumber v.totalPages) } renderOk

/-! ## `MediaManager.emit` (src/js/app.js lines 1153–1163)

`emit` walks the listener array in order (`forEach`), invoking each callback
on the payload inside `try { ... } catch { console.error(...) }`. A callback
is a function that either returns normally (`Except.ok`) or throws
(`Except.error`); the dispatch records, per callback, either its result or
the logged error. The `ManagerState.trace` field above records *which*
events the manager operations emit; `emit` here is the dispatch loop
itself. -/

inductive HandlerOutcome (β : Type) where
  | ok (value : β)
  | logged (error : String)
deriving DecidableEq, Repr

/-- The body of the `forEach`: one callback invocation under `try`/`catch`. -/
def outcomeOf {α β : Type} (callback : α → Except String β) (data : α) :
    HandlerOutcome β :=
  match callback data with
  | Except.ok b => HandlerOutcome.ok b
  | Except.error e => HandlerOutcome.logged e

/-- `MediaManager.emit(event, data)`: invoke every subscribed callback in
subscription order; a throwing callback is caught and logged, and the loop
continues. -/
def emit {α β : Type} (listeners : List (α → Except String β)) (data : α) :
    List (HandlerOutcome β) :=
  match listeners with
  | [] => []
  | callback :: rest => outcomeOf callback data :: emit rest data

/-! ## Concrete sample data used by witnesses and counterexamples -/

/-- A 3-page pdf metadata record as `addFile` would build it. -/
def mfA : MediaFile :=
  { id := 0, fileName := "a.pdf", displayName := "a.pdf"
    mediaType := MediaType.pdf, fileSize := 3, importDate := "2026-01-01"
    thumbnailDataUrl := "thumb", pageCount := some 3, lastViewedPage := 1
    lastViewedTime := 0, videoDuration := none }

/-- A library holding exactly the one selected pdf `mfA`. -/
def mOne : ManagerState :=
  { files := [mfA], currentFile := some mfA, fileData := [], trace := [] }

/-- The raw file behind `mfA`. -/
def rawA : RawFile :=
  { name := "a.pdf", size := 3, bytes := [1, 2, 3], type := "application/pdf" }

/-- A video metadata record (duration 120, resumed at 10 s). -/
def mfVid : MediaFile :=
  { id := 7, fileName := "c.mp4", displayName := "c.mp4"
    mediaType := MediaType.video, fileSize := 5, importDate := "2026-01-02"
    thumbnailDataUrl := "thumb", pageCount := none, lastViewedPage := 1
    lastViewedTime := 10, videoDuration := some 120 }

/-- A player showing `mfVid`: the observed position and the last saved
position are both 10 s. -/
def pSeek : PlayerState :=
  { hasVideoElement := true, videoElementTime := 10, currentFile := some mfVid
    currentTime := 10, duration := 120, lastSavedPosition := 10
    manager := { files := [mfVid], currentFile := some mfVid, fileData := [], trace := [] } }

/-- A player whose observed position (50 s) drifted more than 1 s from the
last saved position (0 s). -/
def pSeekFar : PlayerState :=
  { hasVideoElement := true, videoElementTime := 50, currentFile := some mfVid
    currentTime := 50, duration := 120, lastSavedPosition := 0
    manager := { files := [mfVid], currentFile := some mfVid, fileData := [], trace := [] } }

/-- A pdf viewer with a render in flight (`isRendering = true`) and the
in-flight task stored in `renderTask`. -/
def vBusy : ViewerState :=
  { pdfLoaded := true, currentPage := 1, totalPages := 3, isRendering := true
    renderTask := some (), cancelCount := 0, renderedPage := none
    currentFile := some mfA
    manager := { files := [mfA], currentFile := some mfA, fileData := [], trace := [] } }

/-- An idle pdf viewer on page 1 of 3. -/
def vIdle : ViewerState :=
  { pdfLoaded := true, currentPage := 1, totalPages := 3, isRendering := false
    renderTask := none, cancelCount := 0, renderedPage := some 1
    currentFile := some mfA
    manager := { files := [mfA], currentFile := some mfA, fileData := [], trace := [] } }

/-- Event-order check: `occursBefore a b tr` holds when some occurrence of
`a` in `tr` is strictly followed by an occurrence of `b`. -/
def occursBefore (a b : Event) : List Event → Bool
  | [] => false
  | e :: rest => if e = a then rest.contains b else occursBefore a b rest

/-- Sample handlers for the dispatch claims: identity, a throwing handler,
and successor. -/
def hOk1 : Nat → Except String Nat := fun n => Except.ok n

def hBad : Nat → Except String Nat := fun _ => Except.error "boom"

def hOk2 : Nat → Except String Nat := fun n => Except.ok (n + 1)

end PinkReader

namespace PinkReader

/-- C9: `getMediaType` is total onto {pdf, image, video}; any extension outside
the three recognized tables yields `pdf`; hence `isValidFile` accepts every
file name. -/
theorem getMediaType_defaults_pdf_and_isValidFile_total :
    (∀ fileName, getMediaType fileName = MediaType.pdf ∨
        getMediaType fileName = MediaType.image ∨
        getMediaType fileName = MediaType.video)
    ∧ (∀ fileName, pdfExtensions.contains (extOf fileName) = false →
        imageExtensions.contains (extOf fileName) = false →
        videoExtensions.contains (extOf fileName) = false →
        getMediaType fileName = MediaType.pdf)
    ∧ (∀ fileName, isValidFile fileName = true) := by
  refine ⟨?_, ?_, ?_⟩
  · intro fileName
    unfold getMediaType
    split
    · exact Or.inl rfl
    split
    · exact Or.inr (Or.inl rfl)
    split
    · exact Or.inr (Or.inr rfl)
    · exact Or.inl rfl
  · intro fileName h1 h2 h3
    unfold getMediaType
    rw [h1, h2, h3]
    rfl
  · intro fileName
    unfold isValidFile
    cases getMediaType fileName <;> rfl

/-- Witness for C9: the unrecognized extension `"xyz"` (file `"file.xyz"`)
is accepted and classified as pdf. -/
theorem getMediaType_defaults_pdf_witness :
    (pdfExtensions.contains (extOf "file.xyz") = false
      ∧ imageExtensions.contains (extOf "file.xyz") = false
      ∧ videoExtensions.contains (extOf "file.xyz") = false)
    ∧ getMediaType "file.xyz" = MediaType.pdf
    ∧ isValidFile "file.xyz" = true :=
  ⟨⟨by decide, by decide, by decide⟩,
    getMediaType_defaults_pdf_and_isValidFile_total.2.1 "file.xyz"
      (by decide) (by decide) (by decide),
    getMediaType_defaults_pdf_and_isValidFile_total.2.2 "file.xyz"⟩

/-- Looking up the key just `put` always finds the fresh record. -/
lemma fdGet_fdPut (store : List ContentRecord) (r : ContentRecord) :
    fdGet (fdPut store r) r.id = some r := by
  induction store with
  | nil => simp [fdPut, fdGet]
  | cons x xs ih =>
    by_cases hx : x.id = r.id
    · simp [fdPut, fdGet, hx]
    · have hpx : (x.id == r.id) = false := by simp [hx]
      unfold fdPut fdGet at ih ⊢
      simp only [List.any_cons, hpx, Bool.false_or]
      by_cases h2 : xs.any (fun y => y.id == r.id)
      · rw [if_pos h2] at ih
        rw [if_pos h2]
        simpa [List.find?_cons, hx, hpx] using ih
      · rw [if_neg h2] at ih
        rw [if_neg h2]
        simpa [List.find?_cons, hx, hpx, List.cons_append] using ih

/-- A key absent from every record is not found. -/
lemma fdGet_eq_none_of_fresh (store : List ContentRecord) (fileId : Nat)
    (h : ∀ r ∈ store, r.id ≠ fileId) : fdGet store fileId = none := by
  apply List.find?_eq_none.mpr
  intro x hx
  simpa using h x hx

/-- After `delete(id)` the key `id` is not found. -/
lemma fdGet_fdDelete (store : List ContentRecord) (fileId : Nat) :
    fdGet (fdDelete store fileId) fileId = none := by
  apply List.find?_eq_none.mpr
  intro x hx
  rw [fdDelete, List.mem_filter] at hx
  simpa using hx.2

/-- C3: reading content back after `storeFileData` returns the exact stored
bytes with the declared MIME type, and `getFileData` on an id that was never
stored, or that has been deleted, rejects with `'File data not found'`. -/
theorem content_store_roundtrip :
    (∀ (store : List ContentRecord) (fileId : Nat) (file : RawFile),
        getFileData (storeFileData store fileId file) fileId
          = Except.ok (file.bytes, file.type))
    ∧ (∀ (store : List ContentRecord) (fileId : Nat),
        (∀ r ∈ store, r.id ≠ fileId) →
        getFileData store fileId = Except.error "File data not found")
    ∧ (∀ (store : List ContentRecord) (fileId : Nat),
        getFileData (fdDelete store fileId) fileId
          = Except.error "File data not found") := by
  refine ⟨?_, ?_, ?_⟩
  · intro store fileId file
    unfold getFileData storeFileData
    rw [fdGet_fdPut store
      { id := fileId, data := file.bytes, type := file.type, name := file.name }]
  · intro store fileId h
    unfold getFileData
    rw [fdGet_eq_none_of_fresh store fileId h]
  · intro store fileId
    unfold getFileData
    rw [fdGet_fdDelete store fileId]

/-- Witness for C3: store `rawA`'s bytes under id 0 in the empty store, read
them back byte-identically; reading id 0 from the empty store fails, as does
reading after deletion. -/
theorem content_store_roundtrip_witness :
    getFileData (storeFileData [] 0 rawA) 0
      = Except.ok ([1, 2, 3], "application/pdf")
    ∧ getFileData [] 0 = Except.error "File data not found"
    ∧ getFileData (fdDelete (storeFileData [] 0 rawA) 0) 0
      = Except.error "File data not found" :=
  ⟨content_store_roundtrip.1 [] 0 rawA,
    content_store_roundtrip.2.1 [] 0 (by intro r hr; simp at hr),
    content_store_roundtrip.2.2 (storeFileData [] 0 rawA) 0⟩

/-- `setCurrentFile` never touches the file list. -/
lemma setCurrentFile_files (s : ManagerState) (fo : Option MediaFile) :
    (setCurrentFile s fo).files = s.files := by
  unfold setCurrentFile
  split <;> rfl

/-- `setCurrentFile` never touches the content store. -/
lemma setCurrentFile_fileData (s : ManagerState) (fo : Option MediaFile) :
    (setCurrentFile s fo).fileData = s.fileData := by
  unfold setCurrentFile
  split <;> rfl

/-- When a file is currently selected, `setCurrentFile` always lands inside
its guard, so the pointer becomes exactly the argument. -/
lemma setCurrentFile_currentFile_of_some (s : ManagerState) (c : MediaFile)
    (fo : Option MediaFile) (h : s.currentFile = some c) :
    (setCurrentFile s fo).currentFile = fo := by
  unfold setCurrentFile
  by_cases hfo : fo = none
  · subst hfo
    rw [if_pos (Or.inl (by simp [h]))]
  · rw [if_pos (Or.inr hfo)]

/-- C2: starting from a state whose current file is none or a member of the
list, `removeFile` preserves the invariant — the new current file is none or
still present in the remaining list — and when the removed file was current,
the new current file is exactly the first remaining file (or none). -/
theorem removeFile_preserves_current_invariant (s : ManagerState)
    (file : MediaFile)
    (hinv : s.currentFile = none ∨ ∃ c, s.currentFile = some c ∧ c ∈ s.files) :
    ((removeFile s file).currentFile = none
      ∨ ∃ c, (removeFile s file).currentFile = some c
          ∧ c ∈ (removeFile s file).files)
    ∧ (∀ c0, s.currentFile = some c0 → c0.id = file.id →
        (removeFile s file).currentFile
          = (s.files.filter (fun f => f.id != file.id)).head?) := by
  rcases hcur : s.currentFile with _ | c
  · constructor
    · left
      simp [removeFile, hcur]
    · intro c0 h0
      exact absurd h0 (by simp)
  · by_cases hid : c.id = file.id
    · have hcf : (removeFile s file).currentFile
          = (s.files.filter (fun f => f.id != file.id)).head? := by
        unfold removeFile
        simp only [hcur, hid, if_pos]
        exact setCurrentFile_currentFile_of_some _ c _ rfl
      have hfl : (removeFile s file).files
          = s.files.filter (fun f => f.id != file.id) := by
        unfold removeFile
        simp only [hcur, hid, if_pos]
        exact setCurrentFile_files _ _
      constructor
      · rcases hh : (s.files.filter (fun f => f.id != file.id)).head? with _ | h
        · left
          rw [hcf, hh]
        · right
          exact ⟨h, by rw [hcf, hh], by
            rw [hfl]
            exact List.mem_of_mem_head? (by simp [hh])⟩
      · intro c0 h0 _
        exact hcf
    · have hcf : (removeFile s file).currentFile = some c := by
        unfold removeFile
        simp only [hcur]
        simp [hid]
      constructor
      · right
        refine ⟨c, hcf, ?_⟩
        have hmem : c ∈ s.files := by
          rcases hinv with h | ⟨c', hc', hm⟩
          · rw [hcur] at h
            exact absurd h (by simp)
          · rw [hcur] at hc'
            cases hc'
            exact hm
        have hfl : (removeFile s file).files
            = s.files.filter (fun f => f.id != file.id) := by
          unfold removeFile
          simp only [hcur]
          simp [hid]
        rw [hfl, List.mem_filter]
        exact ⟨hmem, by simp [hid]⟩
      · intro c0 h0 hid0
        cases h0
        exact absurd hid0 hid

/-- Witness for C2: removing the currently selected only file `mfA` leaves an
empty library with no selection. -/
theorem removeFile_preserves_current_invariant_witness :
    (((removeFile mOne mfA).currentFile = none
        ∨ ∃ c, (removeFile mOne mfA).currentFile = some c
          ∧ c ∈ (removeFile mOne mfA).files)
      ∧ (∀ c0, mOne.currentFile = some c0 → c0.id = mfA.id →
          (removeFile mOne mfA).currentFile
            = (mOne.files.filter (fun f => f.id != mfA.id)).head?)) :=
  removeFile_preserves_current_invariant mOne mfA
    (Or.inr ⟨mfA, rfl, by simp [mOne]⟩)

/-- C1: if persisting the binary content rejects during `addFile`, the error
propagates to the caller, the whole manager state is unchanged — in
particular the failed file's id appears nowhere in the in-memory list, and
the current-file pointer is not moved. -/
theorem addFile_content_failure_no_ghost (s : ManagerState) (file : RawFile)
    (fileId : Nat) (importDate thumbnailDataUrl : String)
    (pdfPageCount : Option Nat) (e : String)
    (hfresh : ∀ g ∈ s.files, g.id ≠ fileId) :
    (addFile s file fileId importDate thumbnailDataUrl pdfPageCount
        (Except.error e)).1 = Except.error e
    ∧ (addFile s file fileId importDate thumbnailDataUrl pdfPageCount
        (Except.error e)).2 = s
    ∧ (∀ g ∈ (addFile s file fileId importDate thumbnailDataUrl pdfPageCount
        (Except.error e)).2.files, g.id ≠ fileId)
    ∧ (addFile s file fileId importDate thumbnailDataUrl pdfPageCount
        (Except.error e)).2.currentFile = s.currentFile :=
  ⟨rfl, rfl, hfresh, rfl⟩

/-- Witness for C1: a failed import into the empty library leaves it empty
and unselected. -/
theorem addFile_content_failure_no_ghost_witness :
    (addFile emptyManager rawA 0 "2026-01-01" "thumb" (some 3)
        (Except.error "write rejected")).1 = Except.error "write rejected"
    ∧ (addFile emptyManager rawA 0 "2026-01-01" "thumb" (some 3)
        (Except.error "write rejected")).2 = emptyManager
    ∧ (∀ g ∈ (addFile emptyManager rawA 0 "2026-01-01" "thumb" (some 3)
        (Except.error "write rejected")).2.files, g.id ≠ 0)
    ∧ (addFile emptyManager rawA 0 "2026-01-01" "thumb" (some 3)
        (Except.error "write rejected")).2.currentFile = emptyManager.currentFile :=
  addFile_content_failure_no_ghost emptyManager rawA 0 "2026-01-01" "thumb"
    (some 3) "write rejected" (by intro g hg; simp [emptyManager] at hg)

/-- C4 counterexample: `setCurrentFile(null)` while the current file is
already `null` falls outside the guard `currentFile !== file || file !== null`
— the state is returned untouched and no `currentFileChanged` notification is
emitted, contrary to "always notifies". -/
theorem setCurrentFile_none_none_cex :
    setCurrentFile emptyManager none = emptyManager
    ∧ (setCurrentFile emptyManager none).trace = [] := by
  constructor <;> rfl

/-- C4 amended: `setCurrentFile` updates the pointer and always emits
`currentFileChanged` when the argument is a file (including re-selecting the
file already current), and when the argument is none while a file is current;
but setting none when the current file is already none is a silent no-op. -/
theorem setCurrentFile_emit_amended :
    (∀ s (f : MediaFile), setCurrentFile s (some f) =
        { s with currentFile := some f
                 trace := s.trace ++ [Event.currentFileChanged] })
    ∧ (∀ s, s.currentFile ≠ none → setCurrentFile s none =
        { s with currentFile := none
                 trace := s.trace ++ [Event.currentFileChanged] })
    ∧ (∀ s, s.currentFile = none → setCurrentFile s none = s) := by
  refine ⟨?_, ?_, ?_⟩
  · intro s f
    unfold setCurrentFile
    rw [if_pos (Or.inr (by simp))]
  · intro s h
    unfold setCurrentFile
    rw [if_pos (Or.inl h)]
  · intro s h
    unfold setCurrentFile
    rw [if_neg (by simp [h])]

/-- Witness for C4 amended: deselecting from `mfA` emits the notification;
deselecting when nothing is selected does not. -/
theorem setCurrentFile_emit_amended_witness :
    setCurrentFile { emptyManager with currentFile := some mfA } none
      = { emptyManager with currentFile := none
                            trace := [Event.currentFileChanged] }
    ∧ setCurrentFile emptyManager none = emptyManager := by
  constructor
  · have h := setCurrentFile_emit_amended.2.1
      { emptyManager with currentFile := some mfA } (by simp)
    simpa [emptyManager] using h
  · exact setCurrentFile_emit_amended.2.2 emptyManager rfl

/-- C5 counterexample: a successful `addFile` into the empty library emits
`currentFileChanged` (from `setCurrentFile`) *before* `filesChanged`; the
claimed order — `filesChanged` preceding `currentFileChanged` — does not
occur in the trace. -/
theorem addFile_trace_order_cex :
    (addFile emptyManager rawA 0 "2026-01-01" "thumb" (some 3)
        (Except.ok ())).2.trace
      = [Event.currentFileChanged, Event.filesChanged]
    ∧ occursBefore Event.filesChanged Event.currentFileChanged
        ((addFile emptyManager rawA 0 "2026-01-01" "thumb" (some 3)
            (Except.ok ())).2.trace) = false := by
  constructor <;> rfl

/-- C5 amended: on a successful import, `addFile` persists the content, then
builds the metadata record, appends it to the in-memory list, selects it
(emitting `currentFileChanged`), and finally emits `filesChanged`: the trace
of one successful `addFile` call is `currentFileChanged` followed by
`filesChanged` (metadata persistence is the debounced save scheduled by the
`filesChanged` listener, after both notifications). -/
theorem addFile_success_trace (s : ManagerState) (file : RawFile)
    (fileId : Nat) (importDate thumbnailDataUrl : String)
    (pdfPageCount : Option Nat) :
    (addFile s file fileId importDate thumbnailDataUrl pdfPageCount
        (Except.ok ())).2.trace
      = s.trace ++ [Event.currentFileChanged, Event.filesChanged] := by
  unfold addFile setCurrentFile
  simp

/-- Updating the first record with a given id commutes with looking that id
up: the lookup returns the updated record. -/
lemma find?_setLastViewedTimeFirst (fid : Nat) (t : ℚ) (l : List MediaFile) :
    (setLastViewedTimeFirst fid t l).find? (fun f => f.id == fid)
      = (l.find? (fun f => f.id == fid)).map
          (fun g => { g with lastViewedTime := t }) := by
  induction l with
  | nil => rfl
  | cons f fs ih =>
    by_cases h : f.id = fid
    · simp [setLastViewedTimeFirst, h]
    · simp [setLastViewedTimeFirst, h, ih]

/-- Same statement for `lastViewedPage`. -/
lemma find?_setLastViewedPageFirst (fid : Nat) (p : Int) (l : List MediaFile) :
    (setLastViewedPageFirst fid p l).find? (fun f => f.id == fid)
      = (l.find? (fun f => f.id == fid)).map
          (fun g => { g with lastViewedPage := p }) := by
  induction l with
  | nil => rfl
  | cons f fs ih =>
    by_cases h : f.id = fid
    · simp [setLastViewedPageFirst, h]
    · simp [setLastViewedPageFirst, h, ih]

/-- The file list after `updateLastViewedTime`. -/
lemma updateLastViewedTime_files (s : ManagerState) (file : MediaFile) (t : ℚ) :
    (updateLastViewedTime s file t).files
      = if s.files.any (fun f => f.id == file.id)
        then setLastViewedTimeFirst file.id t s.files
        else s.files := by
  unfold updateLastViewedTime
  by_cases hany : s.files.any (fun f => f.id == file.id)
  · rw [if_pos hany, if_pos hany]
    rcases hcur : s.currentFile with _ | c
    · rfl
    · split <;> try rfl
      split <;> rfl
  · rw [if_neg hany, if_neg hany]

/-- The file list after `updateLastViewedPage`. -/
lemma updateLastViewedPage_files (s : ManagerState) (file : MediaFile) (p : Int) :
    (updateLastViewedPage s file p).files
      = if s.files.any (fun f => f.id == file.id)
        then setLastViewedPageFirst file.id p s.files
        else s.files := by
  unfold updateLastViewedPage
  by_cases hany : s.files.any (fun f => f.id == file.id)
  · rw [if_pos hany, if_pos hany]
    rcases hcur : s.currentFile with _ | c
    · rfl
    · split <;> try rfl
      split <;> rfl
  · rw [if_neg hany, if_neg hany]

/-- `getFileById` after `updateLastViewedTime` returns the old record with
`lastViewedTime` replaced (and still `none` if the id was unknown). -/
lemma getFileById_updateLastViewedTime (s : ManagerState) (file : MediaFile)
    (t : ℚ) :
    getFileById (updateLastViewedTime s file t) file.id
      = (getFileById s file.id).map (fun g => { g with lastViewedTime := t }) := by
  unfold getFileById
  rw [updateLastViewedTime_files]
  by_cases hany : s.files.any (fun f => f.id == file.id)
  · rw [if_pos hany]
    exact find?_setLastViewedTimeFirst file.id t s.files
  · rw [if_neg hany]
    have hnone : s.files.find? (fun f => f.id == file.id) = none := by
      apply List.find?_eq_none.mpr
      intro x hx hxx
      exact hany (List.any_eq_true.mpr ⟨x, hx, hxx⟩)
    rw [hnone]
    rfl

/-- `getFileById` after `updateLastViewedPage`, same statement. -/
lemma getFileById_updateLastViewedPage (s : ManagerState) (file : MediaFile)
    (p : Int) :
    getFileById (updateLastViewedPage s file p) file.id
      = (getFileById s file.id).map (fun g => { g with lastViewedPage := p }) := by
  unfold getFileById
  rw [updateLastViewedPage_files]
  by_cases hany : s.files.any (fun f => f.id == file.id)
  · rw [if_pos hany]
    exact find?_setLastViewedPageFirst file.id p s.files
  · rw [if_neg hany]
    have hnone : s.files.find? (fun f => f.id == file.id) = none := by
      apply List.find?_eq_none.mpr
      intro x hx hxx
      exact hany (List.any_eq_true.mpr ⟨x, hx, hxx⟩)
    rw [hnone]
    rfl

/-- C6 counterexample: on `pSeek` (duration 120, player's observed position
and last saved position both 10 s) `seek(500)` does set the video element to
the clamp 120, but the persisted `lastViewedTime` stays 10 — `seek` hands
`saveCurrentPosition` the player's stale `currentTime` field and the `> 1`
guard then skips the write entirely, so the clamped position 120 is *not*
persisted. -/
theorem seek_persists_stale_cex :
    (seek pSeek 500).videoElementTime = 120
    ∧ (getFileById (seek pSeek 500).manager 7).map (fun g => g.lastViewedTime)
        = some 10
    ∧ ((10 : ℚ) ≠ 120) := by
  have hseek : seek pSeek 500 =
      { pSeek with videoElementTime := max 0 (min pSeek.duration 500) } := by
    unfold seek saveCurrentPosition
    rw [if_pos ⟨rfl, by simp [pSeek]⟩]
    simp only [pSeek, mfVid]
    norm_num
  refine ⟨?_, ?_, by norm_num⟩
  · rw [hseek]
    show max 0 (min pSeek.duration 500) = 120
    norm_num [pSeek]
  · rw [hseek]
    rfl

/-- C6 amended: `seek(t)` sets the *video element's* position to `t` clamped
to `[0, duration]`; it then attempts to persist not that clamped target but
the player's own `currentTime` field (updated only asynchronously by
`timeupdate` events), and only when that field differs from
`lastSavedPosition` by more than 1 second — otherwise nothing is persisted. -/
theorem seek_clamps_saves_observed_amended (p : PlayerState) (t : ℚ)
    (cf : MediaFile) (hv : p.hasVideoElement = true)
    (hcf : p.currentFile = some cf) :
    (seek p t).videoElementTime = max 0 (min p.duration t)
    ∧ (¬ 1 < |p.currentTime - p.lastSavedPosition| →
        (seek p t).manager = p.manager
        ∧ (seek p t).lastSavedPosition = p.lastSavedPosition)
    ∧ (1 < |p.currentTime - p.lastSavedPosition| →
        getFileById (seek p t).manager cf.id
          = (getFileById p.manager cf.id).map
              (fun g => { g with lastViewedTime := p.currentTime })
        ∧ (seek p t).lastSavedPosition = p.currentTime) := by
  unfold seek saveCurrentPosition
  rw [if_pos ⟨hv, by simp [hcf]⟩]
  simp only [hcf]
  by_cases habs : 1 < |p.currentTime - p.lastSavedPosition|
  · rw [if_pos habs]
    refine ⟨rfl, fun hc => absurd habs hc, fun _ => ⟨?_, rfl⟩⟩
    show getFileById (updateLastViewedTime p.manager cf p.currentTime) cf.id = _
    exact getFileById_updateLastViewedTime p.manager cf p.currentTime
  · rw [if_neg habs]
    exact ⟨rfl, fun _ => ⟨rfl, rfl⟩, fun hc => absurd hc habs⟩

/-- Witness for C6 amended: on `pSeekFar` (observed position 50 s, last saved
0 s) `seek(500)` clamps the element to 120 and persists 50 — the observed
position, not the seek target. -/
theorem seek_clamps_saves_observed_amended_witness :
    (seek pSeekFar 500).videoElementTime = 120
    ∧ getFileById (seek pSeekFar 500).manager mfVid.id
        = some { mfVid with lastViewedTime := 50 }
    ∧ (seek pSeekFar 500).lastSavedPosition = 50 := by
  have h := seek_clamps_saves_observed_amended pSeekFar 500 mfVid rfl rfl
  have habs : (1 : ℚ) < |pSeekFar.currentTime - pSeekFar.lastSavedPosition| := by
    norm_num [pSeekFar]
  refine ⟨?_, ?_, (h.2.2 habs).2⟩
  · rw [h.1]
    norm_num [pSeekFar]
  · rw [(h.2.2 habs).1]
    rfl

/-- `renderFinish` never changes the current page. -/
lemma renderFinish_currentPage (v0 : ViewerState) (renderOk : Bool) :
    (renderFinish v0 renderOk).currentPage = v0.currentPage := by
  unfold renderFinish
  repeat' split
  all_goals rfl

/-- `renderFinish` never changes the cancellation count. -/
lemma renderFinish_cancelCount (v0 : ViewerState) (renderOk : Bool) :
    (renderFinish v0 renderOk).cancelCount = v0.cancelCount := by
  unfold renderFinish
  repeat' split
  all_goals rfl

/-- `renderPage` never changes the current page. -/
lemma renderPage_currentPage (v : ViewerState) (renderOk : Bool) :
    (renderPage v renderOk).currentPage = v.currentPage := by
  unfold renderPage
  split
  · rfl
  · by_cases hrt : v.renderTask.isSome
    · rw [if_pos hrt, renderFinish_currentPage]
    · rw [if_neg hrt, renderFinish_currentPage]

/-- A successful sequential `renderPage` run commits the current page to the
canvas and persists it. -/
lemma renderPage_success (v : ViewerState) (cf : MediaFile)
    (hld : v.pdfLoaded = true) (hnr : v.isRendering = false)
    (hcf : v.currentFile = some cf) :
    (renderPage v true).renderedPage = some v.currentPage
    ∧ (renderPage v true).manager
        = updateLastViewedPage v.manager cf v.currentPage := by
  unfold renderPage renderFinish
  rw [if_neg (by simp [hld, hnr])]
  by_cases hrt : v.renderTask.isSome
  · rw [if_pos hrt]
    simp [hcf]
  · rw [if_neg hrt]
    simp [hcf]

/-- C7: for a loaded pdf, `goToPage(n)` always leaves the current page at
`n` clamped to `[1, totalPages]`; when the clamp equals the current page the
call is a strict no-op (identical state: no render, no persistence); a
successful render commits and persists the current page; and a page change
through `goToPage` persists the clamped page as `lastViewedPage`. -/
theorem goToPage_clamps_noop_render_persists :
    (∀ (v : ViewerState) (renderOk : Bool) (n : Int), v.pdfLoaded = true →
        (goToPage v renderOk n).currentPage = max 1 (min n v.totalPages))
    ∧ (∀ (v : ViewerState) (renderOk : Bool) (n : Int), v.pdfLoaded = true →
        max 1 (min n v.totalPages) = v.currentPage →
        goToPage v renderOk n = v)
    ∧ (∀ (v : ViewerState) (cf : MediaFile), v.pdfLoaded = true →
        v.isRendering = false → v.currentFile = some cf →
        (renderPage v true).renderedPage = some v.currentPage
        ∧ getFileById (renderPage v true).manager cf.id
            = (getFileById v.manager cf.id).map
                (fun g => { g with lastViewedPage := v.currentPage }))
    ∧ (∀ (v : ViewerState) (cf : MediaFile) (n : Int), v.pdfLoaded = true →
        v.isRendering = false → v.currentFile = some cf →
        max 1 (min n v.totalPages) ≠ v.currentPage →
        getFileById (goToPage v true n).manager cf.id
          = (getFileById v.manager cf.id).map
              (fun g => { g with lastViewedPage := max 1 (min n v.totalPages) })) := by
  refine ⟨?_, ?_, ?_, ?_⟩
  · intro v renderOk n hld
    unfold goToPage
    rw [if_neg (by simp [hld])]
    by_cases heq : max 1 (min n v.totalPages) = v.currentPage
    · rw [if_pos heq]
      exact heq.symm
    · rw [if_neg heq, renderPage_currentPage]
  · intro v renderOk n hld heq
    unfold goToPage
    rw [if_neg (by simp [hld]), if_pos heq]
  · intro v cf hld hnr hcf
    obtain ⟨h1, h2⟩ := renderPage_success v cf hld hnr hcf
    refine ⟨h1, ?_⟩
    rw [h2]
    exact getFileById_updateLastViewedPage v.manager cf v.currentPage
  · intro v cf n hld hnr hcf hne
    unfold goToPage
    rw [if_neg (by simp [hld]), if_neg hne]
    obtain ⟨_, h2⟩ :=
      renderPage_success { v with currentPage := max 1 (min n v.totalPages) }
        cf hld hnr hcf
    rw [h2]
    exact getFileById_updateLastViewedPage v.manager cf _

/-- Witness for C7 on `vIdle` (page 1 of 3): `goToPage(99)` clamps to 3,
`goToPage(-5)` clamps to 1 which is a no-op, and `goToPage(2)` persists
`lastViewedPage = 2` for `mfA`. -/
theorem goToPage_clamps_noop_render_persists_witness :
    (goToPage vIdle true 99).currentPage = 3
    ∧ goToPage vIdle true (-5) = vIdle
    ∧ ((renderPage vIdle true).renderedPage = some 1
        ∧ getFileById (renderPage vIdle true).manager mfA.id
            = some { mfA with lastViewedPage := 1 })
    ∧ getFileById (goToPage vIdle true 2).manager mfA.id
        = some { mfA with lastViewedPage := 2 } := by
  refine ⟨?_, ?_, ?_, ?_⟩
  · rw [goToPage_clamps_noop_render_persists.1 vIdle true 99 rfl]
    decide
  · exact goToPage_clamps_noop_render_persists.2.1 vIdle true (-5) rfl (by decide)
  · obtain ⟨h1, h2⟩ :=
      goToPage_clamps_noop_render_persists.2.2.1 vIdle mfA rfl rfl rfl
    exact ⟨h1, by rw [h2]; rfl⟩
  · have h := goToPage_clamps_noop_render_persists.2.2.2 vIdle mfA 2 rfl rfl rfl
      (by decide)
    rw [h]
    rfl

/-- C8 counterexample: a `renderPage` request arriving on `vBusy` (a viewer
with a render in flight and its task in `renderTask`) returns the state
unchanged — the in-flight render is *not* cancelled (`cancelCount` stays 0)
and nothing new is rendered or persisted; the new request is simply dropped,
so the latest request does not win. -/
theorem renderPage_inflight_dropped_cex :
    renderPage vBusy true = vBusy
    ∧ (renderPage vBusy true).cancelCount = 0
    ∧ (renderPage vBusy true).renderedPage = none := by
  refine ⟨?_, ?_, ?_⟩ <;> rfl

/-- C8 amended: a render request made while a render is in flight is ignored
(state unchanged: no cancellation, no render, no persistence — the earlier
in-flight request, not the latest one, produces the committed page);
`renderTask.cancel()` fires only when a renderPage call starts with no render
in flight but a leftover uncommitted task, and a cancelled or failed render
is caught inside `renderPage` (it never surfaces as an error — `renderPage`
always returns a state). -/
theorem renderPage_inflight_ignored_amended :
    (∀ (v : ViewerState) (renderOk : Bool), v.isRendering = true →
        renderPage v renderOk = v)
    ∧ (∀ (v : ViewerState) (renderOk : Bool), v.pdfLoaded = true →
        v.isRendering = false → v.renderTask.isSome = true →
        (renderPage v renderOk).cancelCount = v.cancelCount + 1) := by
  constructor
  · intro v renderOk h
    unfold renderPage
    rw [if_pos (Or.inr h)]
  · intro v renderOk hld hnr hrt
    unfold renderPage
    rw [if_neg (by simp [hld, hnr]), if_pos hrt, renderFinish_cancelCount]

/-- Witness for C8 amended: the busy viewer ignores a new request; an idle
viewer holding a leftover task cancels it exactly once. -/
theorem renderPage_inflight_ignored_amended_witness :
    renderPage vBusy false = vBusy
    ∧ (renderPage { vIdle with renderTask := some () } true).cancelCount
        = vIdle.cancelCount + 1 := by
  constructor
  · exact renderPage_inflight_ignored_amended.1 vBusy false rfl
  · exact renderPage_inflight_ignored_amended.2
      { vIdle with renderTask := some () } true rfl rfl rfl

/-- Every listener is dispatched: `emit` is the in-order map of the guarded
single-callback body over the listener array. -/
lemma emit_eq_map {α β : Type} (listeners : List (α → Except String β))
    (data : α) :
    emit listeners data
      = listeners.map (fun callback => outcomeOf callback data) := by
  induction listeners with
  | nil => rfl
  | cons c cs ih => simp [emit, ih]

/-- C10: `emit` invokes every subscribed handler exactly once, synchronously,
in subscription order, each with the same payload (it equals the in-order
map); and a handler that throws is caught and logged without stopping the
loop: the handlers after it still run, and `emit` itself returns normally. -/
theorem emit_in_order_isolated_failures :
    (∀ {α β : Type} (listeners : List (α → Except String β)) (data : α),
        emit listeners data
          = listeners.map (fun callback => outcomeOf callback data))
    ∧ (∀ {α β : Type} (pre post : List (α → Except String β))
        (h : α → Except String β) (data : α) (e : String),
        h data = Except.error e →
        emit (pre ++ h :: post) data
          = emit pre data ++ HandlerOutcome.logged e :: emit post data) := by
  constructor
  · intro α β listeners data
    exact emit_eq_map listeners data
  · intro α β pre post h data e herr
    rw [emit_eq_map, emit_eq_map, emit_eq_map, List.map_append, List.map_cons]
    simp [outcomeOf, herr]

/-- Witness for C10: with handlers [identity, thrower, successor] on payload
5, the thrower is logged and the later handler still runs with payload 5. -/
theorem emit_in_order_isolated_failures_witness :
    hBad 5 = Except.error "boom"
    ∧ emit ([hOk1] ++ hBad :: [hOk2]) 5
        = emit [hOk1] 5 ++ HandlerOutcome.logged "boom" :: emit [hOk2] 5
    ∧ emit [hOk1, hBad, hOk2] 5
        = [HandlerOutcome.ok 5, HandlerOutcome.logged "boom",
            HandlerOutcome.ok 6] := by
  refine ⟨rfl, ?_, rfl⟩
  exact emit_in_order_isolated_failures.2 [hOk1] [hOk2] hBad 5 "boom" rfl

end PinkReader
